import Mathlib

/-!
Verification of the introspection / normalization / rendering core of the
`ext-sql-context` repository.

The development shallowly embeds the two generator implementations found in
the source:

* `src/src/contextGenerator.ts` — the `DatabaseContextGenerator` class
  (foreign-key aware), its `renderMarkdown` / `escapeMarkdown` /
  `quoteSqliteIdentifier` helpers, and the three per-engine loaders; and
* the unnamed module containing `DatabaseManager` (`fetchSqliteSchema`,
  `buildMarkdownContext`, `formatColumnRow`, a second `escapeMarkdown`),
  embedded inside `namespace DbManager`.

JavaScript `Map` objects (string- or integer-keyed, insertion ordered) are
embedded as association lists; mutation-by-reference row grouping loops are
embedded as left folds that update the first matching entry in place, which
reproduces the observable behaviour of `Array.prototype.find` plus `push`.
-/

set_option autoImplicit false

/-- Engine discriminator; `types.ts` `DatabaseProvider = 'mysql' | 'postgres' | 'sqlite'`. -/
inductive DatabaseProvider where
  | mysql
  | postgres
  | sqlite
deriving DecidableEq, Repr

/-- String form of a provider, as interpolated by the renderer. -/
def DatabaseProvider.str : DatabaseProvider → String
  | .mysql => "mysql"
  | .postgres => "postgres"
  | .sqlite => "sqlite"

/-- `types.ts` `TableInfo.type : 'table' | 'view'`. -/
inductive TableKind where
  | table
  | view
deriving DecidableEq, Repr

def TableKind.str : TableKind → String
  | .table => "table"
  | .view => "view"

/-- `types.ts` `ConnectionConfig`. All fields except the provider are optional. -/
structure ConnectionConfig where
  provider : DatabaseProvider
  host : Option String := none
  port : Option Nat := none
  user : Option String := none
  password : Option String := none
  database : Option String := none
  filePath : Option String := none
  ssl : Option Bool := none
deriving DecidableEq, Repr

/-- `types.ts` `TableColumn`. -/
structure TableColumn where
  name : String
  dataType : String
  isNullable : Bool
  defaultValue : Option String := none
deriving DecidableEq, Repr

/-- The `referencedTable` object of `types.ts` `ForeignKey`
(`{ schema?: string; name: string }`). -/
structure RefTable where
  schema : Option String := none
  name : String
deriving DecidableEq, Repr

/-- `types.ts` `ForeignKey`. -/
structure ForeignKey where
  name : Option String := none
  columns : List String
  referencedTable : RefTable
  referencedColumns : List String
  onUpdate : Option String := none
  onDelete : Option String := none
deriving DecidableEq, Repr

/-- `types.ts` `TableInfo`.  The optional `foreignKeys?: ForeignKey[]` field is
an `Option (List ForeignKey)`; the renderer reads it through `?? []`. -/
structure TableInfo where
  name : String
  schema : Option String := none
  type : TableKind
  columns : List TableColumn
  foreignKeys : Option (List ForeignKey) := none
deriving DecidableEq, Repr

/-- `types.ts` `DatabaseSchema`. -/
structure DatabaseSchema where
  provider : DatabaseProvider
  database : Option String := none
  tables : List TableInfo
deriving DecidableEq, Repr

/-! ## `escapeMarkdown` (contextGenerator.ts lines 453-458)

`value.replace(/\|/g, '\\|')`, with falsy (empty) input returned as `''`
(which coincides with the replacement on the empty string). -/

/-- Character-level body of `escapeMarkdown`: replace every `'|'` by `'\' '|'`. -/
def escapeChars : List Char → List Char
  | [] => []
  | c :: rest => if c = '|' then '\\' :: '|' :: escapeChars rest else c :: escapeChars rest

/-- `escapeMarkdown` of contextGenerator.ts. -/
def escapeMarkdown (value : String) : String :=
  ⟨escapeChars value.data⟩

/-- Specification-side parser reversing `escapeChars`: every `'\' '|'` pair
collapses back to `'|'`; all other characters pass through. -/
def unescapeChars : List Char → List Char
  | [] => []
  | [c] => [c]
  | c1 :: c2 :: rest =>
    if c1 = '\\' ∧ c2 = '|' then '|' :: unescapeChars rest
    else c1 :: unescapeChars (c2 :: rest)

/-- Specification-side check that every `'|'` in a character list is
immediately preceded by a backslash (no bare delimiter). -/
def noBarePipe : List Char → Bool
  | [] => true
  | [c] => !(c = '|')
  | c1 :: c2 :: rest =>
    if c1 = '\\' ∧ c2 = '|' then noBarePipe rest
    else if c1 = '|' then false
    else noBarePipe (c2 :: rest)

/-! ## `quoteSqliteIdentifier` (contextGenerator.ts lines 460-462)

`` `"${value.replace(/"/g, '""')}"` `` — the SQLite identifier-quoting
convention: wrap in double quotes, double every embedded double quote. -/

/-- Character-level body of `quoteSqliteIdentifier`: double every `'"'`. -/
def quoteChars : List Char → List Char
  | [] => []
  | c :: rest => if c = '"' then '"' :: '"' :: quoteChars rest else c :: quoteChars rest

/-- `quoteSqliteIdentifier` of contextGenerator.ts. -/
def quoteSqliteIdentifier (value : String) : String :=
  "\"" ++ String.mk (quoteChars value.data) ++ "\""

/-- Specification-side model of how SQLite reads a double-quoted identifier
occupying a whole fragment: called after the opening quote; `""` is an escaped
quote, a single `"` must terminate the fragment (trailing characters make the
fragment malformed), a missing closing quote is malformed. -/
def readQuotedIdent : List Char → Option (List Char)
  | [] => none
  | [c] => if c = '"' then some [] else none
  | c :: c2 :: rest =>
    if c = '"' then
      if c2 = '"' then (readQuotedIdent rest).map (fun l => '"' :: l)
      else none
    else (readQuotedIdent (c2 :: rest)).map (fun l => c :: l)

/-- Full-fragment identifier parser: expects an opening quote, then defers to
`readQuotedIdent`; yields the identifier the engine would see, or `none` for a
malformed fragment. -/
def sqliteUnquoteIdent (s : String) : Option String :=
  match s.data with
  | '"' :: rest => (readQuotedIdent rest).map (fun l => String.mk l)
  | _ => none

/-! ## `JSON.stringify` on strings

The `DatabaseManager.fetchSqliteSchema` path interpolates table names with
`JSON.stringify(table.name)` instead of `quoteSqliteIdentifier`.  This models
`JSON.stringify` applied to a string value (ECMA-404 string serialization). -/

def hexDigitChar (n : Nat) : Char :=
  if n < 10 then Char.ofNat (48 + n) else Char.ofNat (97 + (n - 10))

/-- ECMAScript `QuoteJSONString` escaping of one character. -/
def jsonEscapeChar (c : Char) : List Char :=
  if c = '"' then ['\\', '"']
  else if c = '\\' then ['\\', '\\']
  else if c = Char.ofNat 8 then ['\\', 'b']
  else if c = Char.ofNat 9 then ['\\', 't']
  else if c = Char.ofNat 10 then ['\\', 'n']
  else if c = Char.ofNat 12 then ['\\', 'f']
  else if c = Char.ofNat 13 then ['\\', 'r']
  else if c.toNat < 32 then
    ['\\', 'u', '0', '0', hexDigitChar (c.toNat / 16), hexDigitChar (c.toNat % 16)]
  else [c]

/-- `JSON.stringify` applied to a string. -/
def jsonStringifyString (s : String) : String :=
  "\"" ++ String.mk (s.data.flatMap jsonEscapeChar) ++ "\""

/-! ## `renderMarkdown` (contextGenerator.ts lines 398-451)

The source pushes lines into one array and joins with `'\n'`.  The
timestamp (`new Date().toISOString()`) is the single impure input; it is
passed here explicitly as `nowIso`. -/

/-- One column row of the markdown column table (loop body at lines 423-428). -/
def columnLine (column : TableColumn) : String :=
  "| " ++ column.name ++ " | " ++ column.dataType ++ " | "
    ++ (if column.isNullable then "YES" else "NO") ++ " | "
    ++ escapeMarkdown (column.defaultValue.getD "") ++ " |"

/-- One relation row of the markdown relations table (loop body at lines 437-445). -/
def fkLine (fk : ForeignKey) : String :=
  let cols := String.intercalate ", " fk.columns
  let refCols := String.intercalate ", " fk.referencedColumns
  let refTable :=
    if (fk.referencedTable.schema.getD "") = "" then fk.referencedTable.name
    else fk.referencedTable.schema.getD "" ++ "." ++ fk.referencedTable.name
  "| " ++ cols ++ " | " ++ refTable ++ " (" ++ refCols ++ ")" ++ " | "
    ++ fk.onUpdate.getD "" ++ " | " ++ fk.onDelete.getD "" ++ " |"

/-- The lines pushed for one table by the `for (const table of schema.tables)`
loop (lines 410-448), including the `continue` on a zero-column table. -/
def tableLines (table : TableInfo) : List String :=
  let qualifiedName :=
    if (table.schema.getD "") = "" then table.name
    else table.schema.getD "" ++ "." ++ table.name
  ["## " ++ qualifiedName, "", "Type: `" ++ table.type.str ++ "`", ""]
    ++ (if table.columns.length = 0 then
          ["_No columns discovered._", ""]
        else
          ["| Column | Type | Nullable | Default |",
           "| ------ | ---- | -------- | ------- |"]
            ++ table.columns.map columnLine
            ++ [""]
            ++ (let fks := table.foreignKeys.getD []
                if fks.length > 0 then
                  ["Relations:", "",
                   "| Columns | References | On Update | On Delete |",
                   "| ------- | ---------- | --------- | --------- |"]
                    ++ fks.map fkLine
                    ++ [""]
                else []))

/-- The full `lines` array built by `renderMarkdown`. -/
def renderLines (schema : DatabaseSchema) (nowIso : String) : List String :=
  ["# Database Context", "", "- Provider: **" ++ schema.provider.str ++ "**"]
    ++ (if (schema.database.getD "") = ""
        then []
        else ["- Database: **" ++ schema.database.getD "" ++ "**"])
    ++ ["- Generated: " ++ nowIso, ""]
    ++ (schema.tables.map tableLines).flatten

/-- `renderMarkdown` — `lines.join('\n')`. -/
def renderMarkdown (schema : DatabaseSchema) (nowIso : String) : String :=
  String.intercalate "\n" (renderLines schema nowIso)

/-! ## The `DatabaseManager` module (unnamed source part)

A second, foreign-key-free generator: `credentials.ts` `ConnectionCredentials`,
`database.ts` schema types and `fetchSqliteSchema`, and `markdown.ts`
(`escapeMarkdown`, `formatTableHeader`, `formatColumnRow`,
`buildMarkdownContext`). -/

namespace DbManager

/-- `credentials.ts` `DatabaseType`. -/
inductive DatabaseType where
  | mysql
  | postgres
  | sqlite
deriving DecidableEq, Repr

def DatabaseType.str : DatabaseType → String
  | .mysql => "mysql"
  | .postgres => "postgres"
  | .sqlite => "sqlite"

/-- `credentials.ts` `ConnectionCredentials`. -/
structure ConnectionCredentials where
  type : DatabaseType
  host : Option String := none
  port : Option Nat := none
  user : Option String := none
  password : Option String := none
  database : Option String := none
  schema : Option String := none
  ssl : Option Bool := none
  filePath : Option String := none
deriving DecidableEq, Repr

/-- `database.ts` `ColumnSchema`. -/
structure ColumnSchema where
  name : String
  dataType : String
  nullable : Bool
  defaultValue : Option String := none
  isPrimaryKey : Bool := false
deriving DecidableEq, Repr

/-- `database.ts` `TableSchema`. -/
structure TableSchema where
  name : String
  schema : Option String := none
  columns : List ColumnSchema
deriving DecidableEq, Repr

/-- `database.ts` `DatabaseSchema` (tables only, no foreign keys). -/
structure DatabaseSchema where
  tables : List TableSchema
deriving DecidableEq, Repr

/-- `markdown.ts` `escapeMarkdown`: `null`/`undefined` become `''`; otherwise
the same `replace(/\|/g, '\\|')` as the other implementation. -/
def escapeMarkdown (value : Option String) : String :=
  match value with
  | none => ""
  | some s => ⟨escapeChars s.data⟩

/-- `markdown.ts` `formatTableHeader`. -/
def formatTableHeader (table : TableSchema) : String :=
  let schemaPref := match table.schema with
    | some s => if s = "" then "" else s ++ "."
    | none => ""
  "### " ++ schemaPref ++ table.name

/-- `markdown.ts` `formatColumnRow`. -/
def formatColumnRow (column : ColumnSchema) : String :=
  let primaryKey := if column.isPrimaryKey then "Yes" else ""
  let nullable := if column.nullable then "Yes" else "No"
  let defaultValue := match column.defaultValue with
    | none => ""
    | some s => escapeMarkdown (some s)
  "| " ++ escapeMarkdown (some column.name) ++ " | "
    ++ escapeMarkdown (some column.dataType) ++ " | "
    ++ nullable ++ " | " ++ defaultValue ++ " | " ++ primaryKey ++ " |"

/-- The `lines` array built by `markdown.ts` `buildMarkdownContext`
(including its early return on an empty table list). -/
def buildMarkdownLines (credentials : ConnectionCredentials)
    (schema : DatabaseSchema) : List String :=
  ["# Database Context", "", "## Connection", "", "- Type: " ++ credentials.type.str]
    ++ (if credentials.type = DatabaseType.sqlite then
          ["- File: " ++ credentials.filePath.getD ""]
        else
          ["- Host: " ++ credentials.host.getD "",
           "- Port: " ++ (match credentials.port with
             | some n => toString n
             | none => ""),
           "- Database: " ++ credentials.database.getD ""]
            ++ (if (credentials.schema.getD "") = ""
                then []
                else ["- Schema: " ++ credentials.schema.getD ""])
            ++ (match credentials.ssl with
                | none => []
                | some b => ["- SSL: " ++ (if b then "enabled" else "disabled")]))
    ++ ["", "## Tables", ""]
    ++ (if schema.tables.isEmpty then
          ["No tables found."]
        else
          (schema.tables.map (fun table =>
            [formatTableHeader table, "",
             "| Column | Type | Nullable | Default | Primary Key |",
             "| --- | --- | --- | --- | --- |"]
              ++ table.columns.map formatColumnRow
              ++ [""])).flatten)

/-- `markdown.ts` `buildMarkdownContext` — `lines.join('\n')`. -/
def buildMarkdownContext (credentials : ConnectionCredentials)
    (schema : DatabaseSchema) : String :=
  String.intercalate "\n" (buildMarkdownLines credentials schema)

end DbManager

/-! ## SQLite file-opening behaviour of the two introspection paths

Both sqlite adapters decide, from the descriptor and the state of the file
system, whether to fail early or to hand a filename to `sqlite.open`.  The
file system is abstracted as an existence oracle; outcome `openedFile p ro`
records which path reaches the driver's `open` and whether the read-only flag
is set (with `ro = false` the driver creates a missing file). -/

inductive SqliteOpenOutcome where
  | errMissingPath (msg : String)
  | errNotFound (resolvedPath : String)
  | openedFile (filename : String) (readOnly : Bool)
deriving DecidableEq, Repr

/-- `DatabaseContextGenerator.loadSqliteSchema` (contextGenerator.ts lines
267-273): only a truthiness check of `filePath`, then
`open({ filename: this.config.filePath, driver })` with no mode flag and no
existence check.  The oracle is accepted for signature parity but never
consulted. -/
def loadSqliteSchemaOpen (config : ConnectionConfig)
    (_fileExists : String → Bool) : SqliteOpenOutcome :=
  match config.filePath with
  | none => .errMissingPath "SQLite configuration missing database file path."
  | some p =>
    if p = "" then .errMissingPath "SQLite configuration missing database file path."
    else .openedFile p false

/-- `DatabaseManager.fetchSqliteSchema` (unnamed part, lines 194-209):
truthiness check of `filePath`, `path.resolve`, `fs.access` existence check
failing with the not-found error, and only then `open` (no mode flag). -/
def fetchSqliteSchemaOpen (credentials : DbManager.ConnectionCredentials)
    (fileExists : String → Bool) (resolvePath : String → String) : SqliteOpenOutcome :=
  match credentials.filePath with
  | none => .errMissingPath "SQLite credentials require a file path."
  | some p =>
    if p = "" then .errMissingPath "SQLite credentials require a file path."
    else
      let resolvedPath := resolvePath p
      if fileExists resolvedPath then .openedFile resolvedPath false
      else .errNotFound resolvedPath

/-- `testConnection`'s sqlite arm (contextGenerator.ts lines 380-392) for
contrast: it opens with `mode: driver.OPEN_READONLY`. -/
def testConnectionSqliteOpen (config : ConnectionConfig)
    (_fileExists : String → Bool) : SqliteOpenOutcome :=
  match config.filePath with
  | none => .errMissingPath "SQLite file path not specified."
  | some p =>
    if p = "" then .errMissingPath "SQLite file path not specified."
    else .openedFile p true

/-! ## Generic first-match grouping

All three foreign-key reconstruction loops share one shape: scan flat rows in
order; for each row, find the first already-built group whose key matches the
row's key and update it in place, otherwise append a fresh group at the end.
`groupStep` is that loop body; `groupFold` the whole loop.  The per-engine
`pgAddFk` / `sqliteAddFk` below are transcribed concretely from the source and
then proved equal to instances of `groupStep`. -/

section Grouping

variable {α β κ : Type} [DecidableEq κ]
variable (keyR : α → κ) (keyB : β → κ) (mk : α → β) (upd : α → β → β)

/-- Update the first entry whose key matches the row's key, else append a new
entry built from the row. -/
def groupStep (r : α) : List β → List β
  | [] => [mk r]
  | b :: rest => if keyB b = keyR r then upd r b :: rest else b :: groupStep r rest

/-- Fold `groupStep` over the rows, starting from no groups. -/
def groupFold (rows : List α) : List β :=
  rows.foldl (fun bs r => groupStep keyR keyB mk upd r bs) []

/-- One step of first-seen key accumulation. -/
def seenStep (ks : List κ) (r : α) : List κ :=
  if keyR r ∈ ks then ks else ks ++ [keyR r]

/-- The distinct row keys in first-seen order. -/
def seenKeys (rows : List α) : List κ :=
  rows.foldl (seenStep keyR) []

/-- Specification of the group built for key `k`: fold the updates over the
rows whose key is `k`, in row order, starting from the first such row. -/
def groupSpecAt (rows : List α) (k : κ) : Option β :=
  match rows.filter (fun r => decide (keyR r = k)) with
  | [] => none
  | r0 :: rs => some (rs.foldl (fun b r => upd r b) (mk r0))

theorem seenFold_nodup (ks : List κ) (rows : List α) (h : ks.Nodup) :
    (rows.foldl (seenStep keyR) ks).Nodup := by
  induction rows generalizing ks with
  | nil => simpa using h
  | cons r rs ih =>
    simp only [List.foldl_cons]
    apply ih
    unfold seenStep
    split
    · exact h
    · next hmem => simp [List.nodup_append, h, hmem]

theorem seenKeys_nodup (rows : List α) : (seenKeys keyR rows).Nodup :=
  seenFold_nodup keyR [] rows List.nodup_nil

theorem mem_seenFold (ks : List κ) (rows : List α) (k : κ) :
    k ∈ rows.foldl (seenStep keyR) ks ↔ k ∈ ks ∨ ∃ r ∈ rows, keyR r = k := by
  induction rows generalizing ks with
  | nil => simp
  | cons r rs ih =>
    rw [List.exists_mem_cons_iff]
    simp only [List.foldl_cons, ih, seenStep]
    by_cases hmem : keyR r ∈ ks
    · rw [if_pos hmem]
      constructor
      · rintro (hk | h)
        · exact Or.inl hk
        · exact Or.inr (Or.inr h)
      · rintro (hk | hk | h)
        · exact Or.inl hk
        · exact Or.inl (hk ▸ hmem)
        · exact Or.inr h
    · rw [if_neg hmem]
      simp only [List.mem_append, List.mem_singleton]
      constructor
      · rintro ((hk | hk) | h)
        · exact Or.inl hk
        · exact Or.inr (Or.inl hk.symm)
        · exact Or.inr (Or.inr h)
      · rintro (hk | hk | h)
        · exact Or.inl (Or.inl hk)
        · exact Or.inl (Or.inr hk.symm)
        · exact Or.inr h

theorem mem_seenKeys (rows : List α) (k : κ) :
    k ∈ seenKeys keyR rows ↔ ∃ r ∈ rows, keyR r = k := by
  simpa using mem_seenFold keyR [] rows k

theorem map_keyB_groupStep
    (hmk : ∀ r, keyB (mk r) = keyR r) (hupd : ∀ r b, keyB (upd r b) = keyB b)
    (r : α) (bs : List β) :
    (groupStep keyR keyB mk upd r bs).map keyB = seenStep keyR (bs.map keyB) r := by
  induction bs with
  | nil => simp [groupStep, seenStep, hmk]
  | cons b rest ih =>
    simp only [groupStep]
    split
    · next h => simp [seenStep, hupd, h]
    · next h =>
      simp only [List.map_cons, ih, seenStep]
      have hne : ¬(keyR r = keyB b) := fun he => h he.symm
      by_cases hm : keyR r ∈ rest.map keyB
      · simp [hm, hne]
      · simp [hm, hne]

theorem find?_groupStep_ne
    (hmk : ∀ r, keyB (mk r) = keyR r) (hupd : ∀ r b, keyB (upd r b) = keyB b)
    (r : α) (k : κ) (hk : k ≠ keyR r) (bs : List β) :
    (groupStep keyR keyB mk upd r bs).find? (fun b => decide (keyB b = k))
      = bs.find? (fun b => decide (keyB b = k)) := by
  induction bs with
  | nil =>
    have hd : (decide (keyB (mk r) = k)) = false := by
      simp only [hmk]
      simpa using Ne.symm hk
    simp [groupStep, List.find?, hd]
  | cons b rest ih =>
    simp only [groupStep]
    split
    · next h =>
      have h1 : ¬(keyB (upd r b) = k) := by rw [hupd, h]; exact fun he => hk he.symm
      have h2 : ¬(keyB b = k) := by rw [h]; exact fun he => hk he.symm
      simp [List.find?, h1, h2]
    · next h =>
      by_cases hbk : keyB b = k
      · simp [List.find?, hbk]
      · simp [List.find?, hbk, ih]

theorem find?_groupStep_eq
    (hmk : ∀ r, keyB (mk r) = keyR r) (hupd : ∀ r b, keyB (upd r b) = keyB b)
    (r : α) (bs : List β) :
    (groupStep keyR keyB mk upd r bs).find? (fun b => decide (keyB b = keyR r))
      = some (match bs.find? (fun b => decide (keyB b = keyR r)) with
              | none => mk r
              | some b => upd r b) := by
  induction bs with
  | nil => simp [groupStep, List.find?, hmk]
  | cons b rest ih =>
    simp only [groupStep]
    split
    · next h =>
      have h1 : keyB (upd r b) = keyR r := by rw [hupd, h]
      simp [List.find?, h1, h]
    · next h =>
      simp only [List.find?]
      rw [show (decide (keyB b = keyR r)) = false by simpa using h]
      simpa using ih

theorem groupSpecAt_append1 (rows : List α) (a : α) (k : κ) :
    groupSpecAt keyR mk upd (rows ++ [a]) k =
      if keyR a = k then
        some (match groupSpecAt keyR mk upd rows k with
              | none => mk a
              | some b => upd a b)
      else groupSpecAt keyR mk upd rows k := by
  unfold groupSpecAt
  rw [List.filter_append]
  by_cases h : keyR a = k
  · have hfa : [a].filter (fun r => decide (keyR r = k)) = [a] := by simp [h]
    rw [hfa]
    cases hf : rows.filter (fun r => decide (keyR r = k)) with
    | nil => simp [h]
    | cons r0 rs => simp [h, List.foldl_append]
  · have hfa : [a].filter (fun r => decide (keyR r = k)) = [] := by simp [h]
    rw [hfa, List.append_nil]
    simp [h]

theorem groupFold_keys_and_spec
    (hmk : ∀ r, keyB (mk r) = keyR r) (hupd : ∀ r b, keyB (upd r b) = keyB b)
    (rows : List α) :
    ((groupFold keyR keyB mk upd rows).map keyB = seenKeys keyR rows) ∧
    ∀ k, (groupFold keyR keyB mk upd rows).find? (fun b => decide (keyB b = k))
          = groupSpecAt keyR mk upd rows k := by
  induction rows using List.reverseRecOn with
  | nil =>
    refine ⟨by simp [groupFold, seenKeys], fun k => ?_⟩
    simp [groupFold, groupSpecAt, List.find?]
  | append_singleton l a ih =>
    have hfold : groupFold keyR keyB mk upd (l ++ [a])
        = groupStep keyR keyB mk upd a (groupFold keyR keyB mk upd l) := by
      simp [groupFold, List.foldl_append]
    have hseen : seenKeys keyR (l ++ [a]) = seenStep keyR (seenKeys keyR l) a := by
      simp [seenKeys, List.foldl_append]
    constructor
    · rw [hfold, hseen, map_keyB_groupStep keyR keyB mk upd hmk hupd, ih.1]
    · intro k
      rw [hfold, groupSpecAt_append1]
      by_cases hk : keyR a = k
      · subst hk
        rw [find?_groupStep_eq keyR keyB mk upd hmk hupd, ih.2]
        simp
      · rw [find?_groupStep_ne keyR keyB mk upd hmk hupd a k (fun he => hk he.symm), ih.2]
        simp [hk]

theorem nodupKeys_find?_self (bs : List β) (h : (bs.map keyB).Nodup) (b : β) (hb : b ∈ bs) :
    bs.find? (fun b2 => decide (keyB b2 = keyB b)) = some b := by
  induction bs with
  | nil => cases hb
  | cons b0 rest ih =>
    rcases List.mem_cons.mp hb with rfl | hb'
    · simp [List.find?]
    · have hk : keyB b0 ≠ keyB b := by
        intro he
        have : keyB b0 ∈ rest.map keyB := he ▸ List.mem_map_of_mem keyB hb'
        exact (List.nodup_cons.mp h).1 this
      simp only [List.find?]
      rw [show (decide (keyB b0 = keyB b)) = false by simpa using hk]
      exact ih (List.nodup_cons.mp h).2 hb'

theorem groupFold_mem_spec
    (hmk : ∀ r, keyB (mk r) = keyR r) (hupd : ∀ r b, keyB (upd r b) = keyB b)
    (rows : List α) (b : β) (hb : b ∈ groupFold keyR keyB mk upd rows) :
    groupSpecAt keyR mk upd rows (keyB b) = some b := by
  have h := groupFold_keys_and_spec keyR keyB mk upd hmk hupd rows
  have hnd : ((groupFold keyR keyB mk upd rows).map keyB).Nodup := by
    rw [h.1]; exact seenKeys_nodup keyR rows
  rw [← h.2 (keyB b)]
  exact nodupKeys_find?_self keyB _ hnd b hb

theorem foldl_upd_proj {γ : Type} (proj : β → List γ) (pf : α → γ)
    (hproj : ∀ r b, proj (upd r b) = proj b ++ [pf r]) (rs : List α) :
    ∀ b, proj (rs.foldl (fun b r => upd r b) b) = proj b ++ rs.map pf := by
  induction rs with
  | nil => intro b; simp
  | cons r rs ih => intro b; simp [List.foldl_cons, ih, hproj]

/-- Every group produced by `groupFold` is exactly the row-order fold of the
rows carrying its key: any list-valued projection that starts as the
singleton of the first row's contribution and appends one element per update
equals the map of the per-row contribution over the row group. -/
theorem groupFold_mem_proj
    (hmk : ∀ r, keyB (mk r) = keyR r) (hupd : ∀ r b, keyB (upd r b) = keyB b)
    {γ : Type} (proj : β → List γ) (pf : α → γ)
    (hpm : ∀ r, proj (mk r) = [pf r])
    (hpu : ∀ r b, proj (upd r b) = proj b ++ [pf r])
    (rows : List α) (b : β) (hb : b ∈ groupFold keyR keyB mk upd rows) :
    rows.filter (fun r => decide (keyR r = keyB b)) ≠ [] ∧
    proj b = (rows.filter (fun r => decide (keyR r = keyB b))).map pf := by
  have hspec := groupFold_mem_spec keyR keyB mk upd hmk hupd rows b hb
  unfold groupSpecAt at hspec
  cases hf : rows.filter (fun r => decide (keyR r = keyB b)) with
  | nil => rw [hf] at hspec; cases hspec
  | cons r0 rs =>
    rw [hf] at hspec
    have hb2 : rs.foldl (fun b r => upd r b) (mk r0) = b := by
      exact Option.some.inj hspec
    refine ⟨by simp, ?_⟩
    rw [← hb2, foldl_upd_proj upd proj pf hpu, hpm]
    simp

end Grouping

/-! ## JavaScript `Map` with string keys, as an insertion-ordered association list

`Map.get` returns the value of the first (unique) matching key; `Map.set` on a
present key keeps its position, on an absent key appends at the end. -/

/-- `Map.get`. -/
def mapGet {β : Type} : List (String × β) → String → Option β
  | [], _ => none
  | (k2, v) :: rest, k => if k2 = k then some v else mapGet rest k

/-- The `get`-or-default / mutate / `set` pattern used by the loaders:
replace the value at `k` by `f` of it (defaulting to `d`), appending a new
entry when `k` is absent. -/
def mapUpsert {β : Type} (m : List (String × β)) (k : String) (d : β) (f : β → β) :
    List (String × β) :=
  match m with
  | [] => [(k, f d)]
  | (k2, v) :: rest => if k2 = k then (k2, f v) :: rest else (k2, v) :: mapUpsert rest k d f

theorem mapGet_eq_find? {β : Type} (m : List (String × β)) (k : String) :
    mapGet m k = (m.find? (fun p => decide (p.1 = k))).map Prod.snd := by
  induction m with
  | nil => rfl
  | cons p rest ih =>
    obtain ⟨k2, v⟩ := p
    by_cases h : k2 = k
    · simp [mapGet, List.find?, h]
    · simp only [mapGet, List.find?]
      rw [if_neg h, show (decide ((k2, v).1 = k)) = false by simpa using h]
      exact ih

/-! ## Postgres foreign-key reconstruction (contextGenerator.ts lines 82-138)

One flat row per (constraint, column-position) pair, ordered by
`table_schema, table_name, constraint_name, ordinal_position`. -/

/-- A row of the Postgres foreign-key catalog query. `constraint_name` is
typed `string | null` in the source. -/
structure PgFkRow where
  constraint_name : Option String
  table_schema : String
  table_name : String
  column_name : String
  foreign_table_schema : String
  foreign_table_name : String
  foreign_column_name : String
  update_rule : Option String := none
  delete_rule : Option String := none
deriving DecidableEq, Repr

/-- The table key `` `${row.table_schema}.${row.table_name}` ``. -/
def pgTableKey (row : PgFkRow) : String :=
  row.table_schema ++ "." ++ row.table_name

/-- The fresh `ForeignKey` object built when no existing constraint matches
(lines 126-134): empty column lists, referenced table and rules from the
current row. -/
def pgNewFk (row : PgFkRow) : ForeignKey :=
  { name := row.constraint_name
    columns := []
    referencedTable := { schema := some row.foreign_table_schema, name := row.foreign_table_name }
    referencedColumns := []
    onUpdate := row.update_rule
    onDelete := row.delete_rule }

/-- Lines 136-137: `fk.columns.push(row.column_name)`;
`fk.referencedColumns.push(row.foreign_column_name)`. -/
def pgPushPair (row : PgFkRow) (fk : ForeignKey) : ForeignKey :=
  { fk with columns := fk.columns ++ [row.column_name]
            referencedColumns := fk.referencedColumns ++ [row.foreign_column_name] }

/-- The per-table loop body (lines 124-137): `fks.find((x) => x.name ===
row.constraint_name)`, push a fresh constraint when absent, then push the
row's column pair onto the found/fresh constraint. -/
def pgAddFk (row : PgFkRow) : List ForeignKey → List ForeignKey
  | [] => [pgPushPair row (pgNewFk row)]
  | fk :: rest =>
    if fk.name = row.constraint_name then pgPushPair row fk :: rest
    else fk :: pgAddFk row rest

/-- The whole `fkMap` loop (lines 115-138): group rows by table key, then by
constraint name within the table. -/
def pgFkMap (rows : List PgFkRow) : List (String × List ForeignKey) :=
  rows.foldl (fun m row => mapUpsert m (pgTableKey row) [] (pgAddFk row)) []

theorem pgAddFk_eq_groupStep (row : PgFkRow) (fks : List ForeignKey) :
    pgAddFk row fks
      = groupStep (fun r => r.constraint_name) (fun fk => fk.name)
          (fun r => pgPushPair r (pgNewFk r)) pgPushPair row fks := by
  induction fks with
  | nil => rfl
  | cons fk rest ih =>
    simp only [pgAddFk, groupStep]
    by_cases h : fk.name = row.constraint_name
    · rw [if_pos h, if_pos h]
    · rw [if_neg h, if_neg h, ih]

/-- The outer (table-keyed) level of `pgFkMap` is also a `groupStep` fold. -/
theorem pgFkMap_step_eq (m : List (String × List ForeignKey)) (row : PgFkRow) :
    mapUpsert m (pgTableKey row) [] (pgAddFk row)
      = groupStep pgTableKey Prod.fst
          (fun r => (pgTableKey r, pgAddFk r []))
          (fun r p => (p.1, pgAddFk r p.2)) row m := by
  induction m with
  | nil => rfl
  | cons p rest ih =>
    obtain ⟨k2, v⟩ := p
    simp only [mapUpsert, groupStep]
    by_cases h : k2 = pgTableKey row
    · rw [if_pos h, if_pos h]
    · rw [if_neg h, if_neg h, ih]

theorem pgFkMap_eq_groupFold (rows : List PgFkRow) :
    pgFkMap rows
      = groupFold pgTableKey Prod.fst
          (fun r => (pgTableKey r, pgAddFk r []))
          (fun r p => (p.1, pgAddFk r p.2)) rows := by
  unfold pgFkMap groupFold
  congr 1
  funext m row
  exact pgFkMap_step_eq m row

theorem foldl_snd {σ κ2 β2 : Type} (f : σ → β2 → β2) (rs : List σ) :
    ∀ p : κ2 × β2, (rs.foldl (fun q r => (q.1, f r q.2)) p).2 = rs.foldl (fun v r => f r v) p.2 := by
  induction rs with
  | nil => intro p; rfl
  | cons r rs ih => intro p; simp only [List.foldl_cons]; exact ih _

/-- Value of `pgFkMap` at a table key: `none` when no row targets the table,
else the `pgAddFk` fold over exactly the rows of that table, in row order. -/
theorem pgFkMap_get (rows : List PgFkRow) (tk : String) :
    mapGet (pgFkMap rows) tk =
      match rows.filter (fun r => decide (pgTableKey r = tk)) with
      | [] => none
      | l => some (l.foldl (fun fks r => pgAddFk r fks) []) := by
  rw [pgFkMap_eq_groupFold, mapGet_eq_find?]
  rw [(groupFold_keys_and_spec pgTableKey Prod.fst
        (fun r => (pgTableKey r, pgAddFk r []))
        (fun r p => (p.1, pgAddFk r p.2))
        (fun _ => rfl) (fun _ _ => rfl) rows).2 tk]
  unfold groupSpecAt
  cases hf : rows.filter (fun r => decide (pgTableKey r = tk)) with
  | nil => rfl
  | cons r0 rs =>
    simp only [Option.map_some']
    rw [foldl_snd]
    simp [List.foldl_cons]

/-! ## SQLite foreign-key reconstruction (contextGenerator.ts lines 296-324)

`PRAGMA foreign_key_list` reports one row per constraint-column pair; the
constraint identifier is the engine-local small-integer group `id`.  Rows are
grouped in a `Map<number, ForeignKey>` keyed by `row.id`; the descriptor's
`name` is always `null`.  The source field names `from` / `to` are reserved
words in Lean and appear here as `fromCol` / `toCol`. -/

/-- A row of `PRAGMA foreign_key_list(...)`. -/
structure SqliteFkRow where
  id : Nat
  seq : Nat
  table : String
  fromCol : String
  toCol : String
  on_update : Option String := none
  on_delete : Option String := none
deriving DecidableEq, Repr

/-- The fresh descriptor built at lines 312-319: `name: null`, empty column
lists, referenced table and rules from the current row. -/
def sqliteNewFk (row : SqliteFkRow) : ForeignKey :=
  { name := none
    columns := []
    referencedTable := { schema := none, name := row.table }
    referencedColumns := []
    onUpdate := row.on_update
    onDelete := row.on_delete }

/-- Lines 322-323: `fk.columns.push(row.from)`; `fk.referencedColumns.push(row.to)`. -/
def sqlitePushPair (row : SqliteFkRow) (fk : ForeignKey) : ForeignKey :=
  { fk with columns := fk.columns ++ [row.fromCol]
            referencedColumns := fk.referencedColumns ++ [row.toCol] }

/-- The `fkGrouped` loop body (lines 309-324) on the insertion-ordered map,
keyed by the engine-local group id. -/
def sqliteAddFk (row : SqliteFkRow) : List (Nat × ForeignKey) → List (Nat × ForeignKey)
  | [] => [(row.id, sqlitePushPair row (sqliteNewFk row))]
  | (i, fk) :: rest =>
    if i = row.id then (i, sqlitePushPair row fk) :: rest
    else (i, fk) :: sqliteAddFk row rest

/-- The whole `fkGrouped` loop; `Array.from(fkGrouped.values())` is
`(sqliteFkFold rows).map Prod.snd`. -/
def sqliteFkFold (rows : List SqliteFkRow) : List (Nat × ForeignKey) :=
  rows.foldl (fun m row => sqliteAddFk row m) []

theorem sqliteAddFk_eq_groupStep (row : SqliteFkRow) (m : List (Nat × ForeignKey)) :
    sqliteAddFk row m
      = groupStep (fun r => r.id) Prod.fst
          (fun r => (r.id, sqlitePushPair r (sqliteNewFk r)))
          (fun r p => (p.1, sqlitePushPair r p.2)) row m := by
  induction m with
  | nil => rfl
  | cons p rest ih =>
    obtain ⟨i, fk⟩ := p
    simp only [sqliteAddFk, groupStep]
    by_cases h : i = row.id
    · rw [if_pos h, if_pos h]
    · rw [if_neg h, if_neg h, ih]

theorem sqliteFkFold_eq_groupFold (rows : List SqliteFkRow) :
    sqliteFkFold rows
      = groupFold (fun r => r.id) Prod.fst
          (fun r => (r.id, sqlitePushPair r (sqliteNewFk r)))
          (fun r p => (p.1, sqlitePushPair r p.2)) rows := by
  unfold sqliteFkFold groupFold
  congr 1
  funext m row
  exact sqliteAddFk_eq_groupStep row m

/-! ## Loader skeletons with resource events

The loaders' effectful structure is embedded over query oracles: each catalog
query result is an `Except` supplied by the environment.  Every loader
returns its result together with the ordered list of resource events it
performed; `connect` records a successful connection/open, `close` the
release, `query` a catalog query reaching the engine.  `tryFinallyEvents`
mirrors `try { body } finally { fin }`: the finaliser's events happen whether
the body succeeded or threw, and the body's outcome propagates. -/

inductive DbEvent where
  | connect
  | query (tag : String)
  | close
deriving DecidableEq, Repr

def tryFinallyEvents {γ : Type} (body : Except String γ × List DbEvent)
    (fin : List DbEvent) : Except String γ × List DbEvent :=
  (body.1, body.2 ++ fin)

/-! ### Postgres loader (contextGenerator.ts lines 29-159) -/

/-- A row of the Postgres table enumeration query. -/
structure PgTableRow where
  table_schema : String
  table_name : String
  table_type : String
deriving DecidableEq, Repr

/-- A row of the Postgres column enumeration query. -/
structure PgColumnRow where
  table_schema : String
  table_name : String
  column_name : String
  data_type : String
  is_nullable : String
  column_default : Option String := none
deriving DecidableEq, Repr

/-- The `columnsMap` loop (lines 67-79): group columns by
`` `${schema}.${table}` `` in row order. -/
def pgColumnsMap (rows : List PgColumnRow) : List (String × List TableColumn) :=
  rows.foldl (fun m row =>
    mapUpsert m (row.table_schema ++ "." ++ row.table_name) []
      (fun existing => existing ++
        [{ name := row.column_name
           dataType := row.data_type
           isNullable := row.is_nullable == "YES"
           defaultValue := row.column_default }])) []

/-- The final table assembly (lines 140-149). -/
def pgTables (tableRows : List PgTableRow)
    (cmap : List (String × List TableColumn))
    (fmap : List (String × List ForeignKey)) : List TableInfo :=
  tableRows.map (fun row =>
    let key := row.table_schema ++ "." ++ row.table_name
    { name := row.table_name
      schema := some row.table_schema
      type := if row.table_type = "VIEW" then TableKind.view else TableKind.table
      columns := (mapGet cmap key).getD []
      foreignKeys := some ((mapGet fmap key).getD []) })

/-- Query oracles for one Postgres introspection call. -/
structure PgEnv where
  connectR : Except String Unit
  tablesR : Except String (List PgTableRow)
  columnsR : Except String (List PgColumnRow)
  fkR : Except String (List PgFkRow)

/-- The `try` block of `loadPostgresSchema`: three sequential catalog
queries, each aborting the block on failure, then pure assembly. -/
def pgTryBody (config : ConnectionConfig) (env : PgEnv) :
    Except String DatabaseSchema × List DbEvent :=
  match env.tablesR with
  | .error e => (.error e, [.query "information_schema.tables"])
  | .ok tableRows =>
    match env.columnsR with
    | .error e =>
      (.error e, [.query "information_schema.tables", .query "information_schema.columns"])
    | .ok columnRows =>
      match env.fkR with
      | .error e =>
        (.error e, [.query "information_schema.tables", .query "information_schema.columns",
                    .query "information_schema fk join"])
      | .ok fkRows =>
        (.ok { provider := .postgres
               database := config.database
               tables := pgTables tableRows (pgColumnsMap columnRows) (pgFkMap fkRows) },
         [.query "information_schema.tables", .query "information_schema.columns",
          .query "information_schema fk join"])

/-- `loadPostgresSchema`: `client.connect()` outside the `try` (a failed
connection performs no release), then the query block with
`finally { await client.end() }`. -/
def loadPostgresSchema (config : ConnectionConfig) (env : PgEnv) :
    Except String DatabaseSchema × List DbEvent :=
  match env.connectR with
  | .error e => (.error e, [])
  | .ok _ =>
    let r := tryFinallyEvents (pgTryBody config env) [.close]
    (r.1, .connect :: r.2)

/-! ### MySQL loader (contextGenerator.ts lines 161-265) -/

structure MySqlTableRow where
  TABLE_NAME : String
  TABLE_TYPE : String
deriving DecidableEq, Repr

structure MySqlColumnRow where
  TABLE_NAME : String
  COLUMN_NAME : String
  COLUMN_TYPE : String
  IS_NULLABLE : String
  COLUMN_DEFAULT : Option String := none
deriving DecidableEq, Repr

/-- A row of the MySQL foreign-key query (lines 203-220). -/
structure MySqlFkRow where
  CONSTRAINT_NAME : Option String
  TABLE_NAME : String
  COLUMN_NAME : String
  REFERENCED_TABLE_NAME : String
  REFERENCED_COLUMN_NAME : String
  UPDATE_RULE : Option String := none
  DELETE_RULE : Option String := none
deriving DecidableEq, Repr

/-- Fresh descriptor of lines 233-240. -/
def mysqlNewFk (row : MySqlFkRow) : ForeignKey :=
  { name := row.CONSTRAINT_NAME
    columns := []
    referencedTable := { schema := none, name := row.REFERENCED_TABLE_NAME }
    referencedColumns := []
    onUpdate := row.UPDATE_RULE
    onDelete := row.DELETE_RULE }

/-- Lines 243-244. -/
def mysqlPushPair (row : MySqlFkRow) (fk : ForeignKey) : ForeignKey :=
  { fk with columns := fk.columns ++ [row.COLUMN_NAME]
            referencedColumns := fk.referencedColumns ++ [row.REFERENCED_COLUMN_NAME] }

/-- Per-table loop body (lines 230-244): find by constraint name, as in the
Postgres loader. -/
def mysqlAddFk (row : MySqlFkRow) : List ForeignKey → List ForeignKey
  | [] => [mysqlPushPair row (mysqlNewFk row)]
  | fk :: rest =>
    if fk.name = row.CONSTRAINT_NAME then mysqlPushPair row fk :: rest
    else fk :: mysqlAddFk row rest

/-- The `fkMap` loop of lines 222-245, keyed by `TABLE_NAME`. -/
def mysqlFkMap (rows : List MySqlFkRow) : List (String × List ForeignKey) :=
  rows.foldl (fun m row => mapUpsert m row.TABLE_NAME [] (mysqlAddFk row)) []

/-- The `columnsMap` loop of lines 188-200. -/
def mysqlColumnsMap (rows : List MySqlColumnRow) : List (String × List TableColumn) :=
  rows.foldl (fun m row =>
    mapUpsert m row.TABLE_NAME []
      (fun existing => existing ++
        [{ name := row.COLUMN_NAME
           dataType := row.COLUMN_TYPE
           isNullable := row.IS_NULLABLE == "YES"
           defaultValue := row.COLUMN_DEFAULT }])) []

/-- Table assembly of lines 247-255. -/
def mysqlTables (tableRows : List MySqlTableRow)
    (cmap : List (String × List TableColumn))
    (fmap : List (String × List ForeignKey)) : List TableInfo :=
  tableRows.map (fun row =>
    { name := row.TABLE_NAME
      schema := none
      type := if row.TABLE_TYPE = "VIEW" then TableKind.view else TableKind.table
      columns := (mapGet cmap row.TABLE_NAME).getD []
      foreignKeys := some ((mapGet fmap row.TABLE_NAME).getD []) })

structure MySqlEnv where
  connectR : Except String Unit
  tablesR : Except String (List MySqlTableRow)
  columnsR : Except String (List MySqlColumnRow)
  fkR : Except String (List MySqlFkRow)

def mysqlTryBody (config : ConnectionConfig) (env : MySqlEnv) :
    Except String DatabaseSchema × List DbEvent :=
  match env.tablesR with
  | .error e => (.error e, [.query "INFORMATION_SCHEMA.TABLES"])
  | .ok tableRows =>
    match env.columnsR with
    | .error e =>
      (.error e, [.query "INFORMATION_SCHEMA.TABLES", .query "INFORMATION_SCHEMA.COLUMNS"])
    | .ok columnRows =>
      match env.fkR with
      | .error e =>
        (.error e, [.query "INFORMATION_SCHEMA.TABLES", .query "INFORMATION_SCHEMA.COLUMNS",
                    .query "KEY_COLUMN_USAGE join"])
      | .ok fkRows =>
        (.ok { provider := .mysql
               database := config.database
               tables := mysqlTables tableRows (mysqlColumnsMap columnRows) (mysqlFkMap fkRows) },
         [.query "INFORMATION_SCHEMA.TABLES", .query "INFORMATION_SCHEMA.COLUMNS",
          .query "KEY_COLUMN_USAGE join"])

/-- `loadMySqlSchema`: `mysql.createConnection` outside the `try`, then the
query block with `finally { await connection.end() }`. -/
def loadMySqlSchema (config : ConnectionConfig) (env : MySqlEnv) :
    Except String DatabaseSchema × List DbEvent :=
  match env.connectR with
  | .error e => (.error e, [])
  | .ok _ =>
    let r := tryFinallyEvents (mysqlTryBody config env) [.close]
    (r.1, .connect :: r.2)

/-! ### SQLite loader (contextGenerator.ts lines 267-342) -/

structure SqliteTableRow where
  name : String
  type : String
deriving DecidableEq, Repr

/-- A row of `PRAGMA table_info(...)`. -/
structure SqliteColumnRow where
  name : String
  type : String
  notnull : Nat
  dflt_value : Option String := none
deriving DecidableEq, Repr

/-- `path.basename` for the POSIX paths the loader passes through. -/
def pathBasename (p : String) : String :=
  match (p.splitOn "/").getLast? with
  | some s => s
  | none => p

/-- Query oracles for one SQLite introspection call: the per-table pragma
results are indexed by table name. -/
structure SqliteEnv where
  openR : Except String Unit
  tablesR : Except String (List SqliteTableRow)
  tableInfoR : String → Except String (List SqliteColumnRow)
  fkListR : String → Except String (List SqliteFkRow)

/-- The per-table loop (lines 281-332): for each enumerated table, a
`PRAGMA table_info` query and a `PRAGMA foreign_key_list` query — the table
name interpolated through `quoteSqliteIdentifier` — then pure assembly; the
first failing pragma aborts the loop. -/
def sqliteTableInfos (env : SqliteEnv) :
    List SqliteTableRow → Except String (List TableInfo) × List DbEvent
  | [] => (.ok [], [])
  | t :: rest =>
    let quoted := quoteSqliteIdentifier t.name
    match env.tableInfoR t.name with
    | .error e => (.error e, [.query ("PRAGMA table_info(" ++ quoted ++ ")")])
    | .ok columns =>
      match env.fkListR t.name with
      | .error e =>
        (.error e, [.query ("PRAGMA table_info(" ++ quoted ++ ")"),
                    .query ("PRAGMA foreign_key_list(" ++ quoted ++ ")")])
      | .ok fks =>
        let info : TableInfo :=
          { name := t.name
            schema := none
            type := if t.type = "view" then TableKind.view else TableKind.table
            columns := columns.map (fun c =>
              { name := c.name
                dataType := c.type
                isNullable := !(c.notnull == 1)
                defaultValue := c.dflt_value })
            foreignKeys := some ((sqliteFkFold fks).map Prod.snd) }
        let r := sqliteTableInfos env rest
        ((r.1).map (fun l => info :: l),
         [.query ("PRAGMA table_info(" ++ quoted ++ ")"),
          .query ("PRAGMA foreign_key_list(" ++ quoted ++ ")")] ++ r.2)

/-- The `try` block of `loadSqliteSchema`: `sqlite_master` enumeration, then
the per-table pragma loop, then assembly. -/
def sqliteTryBody (config : ConnectionConfig) (env : SqliteEnv) :
    Except String DatabaseSchema × List DbEvent :=
  match env.tablesR with
  | .error e => (.error e, [.query "sqlite_master"])
  | .ok tables =>
    let r := sqliteTableInfos env tables
    ((r.1).map (fun infos =>
      { provider := .sqlite
        database := some (pathBasename (config.filePath.getD ""))
        tables := infos }),
     .query "sqlite_master" :: r.2)

/-- `loadSqliteSchema`: the `filePath` truthiness check and `open` precede
the `try`; a failed open performs no release; the query block runs with
`finally { await db.close() }`. -/
def loadSqliteSchema (config : ConnectionConfig) (env : SqliteEnv) :
    Except String DatabaseSchema × List DbEvent :=
  match config.filePath with
  | none => (.error "SQLite configuration missing database file path.", [])
  | some p =>
    if p = "" then (.error "SQLite configuration missing database file path.", [])
    else
      match env.openR with
      | .error e => (.error e, [])
      | .ok _ =>
        let r := tryFinallyEvents (sqliteTryBody config env) [.close]
        (r.1, .connect :: r.2)

/-! ## Properties of the escaping and quoting functions -/

theorem escapeChars_ne_pipe_head (xs : List Char) (d : Char) (t : List Char)
    (h : escapeChars xs = d :: t) : d ≠ '|' := by
  cases xs with
  | nil => simp [escapeChars] at h
  | cons y ys =>
    by_cases hy : y = '|'
    · rw [escapeChars, if_pos hy] at h
      injection h with h1 _
      rw [← h1]
      decide
    · rw [escapeChars, if_neg hy] at h
      injection h with h1 _
      rw [← h1]
      exact hy

theorem escapeChars_eq_nil (xs : List Char) (h : escapeChars xs = []) : xs = [] := by
  cases xs with
  | nil => rfl
  | cons y ys => by_cases hy : y = '|' <;> simp [escapeChars, hy] at h

/-- Left inverse: unescaping an escaped string recovers it exactly. -/
theorem unescapeChars_escapeChars (l : List Char) : unescapeChars (escapeChars l) = l := by
  induction l with
  | nil => rfl
  | cons c xs ih =>
    by_cases hc : c = '|'
    · subst hc
      rw [escapeChars, if_pos rfl, unescapeChars]
      rw [if_pos ⟨rfl, rfl⟩, ih]
    · rw [escapeChars, if_neg hc]
      cases hx : escapeChars xs with
      | nil =>
        rw [escapeChars_eq_nil xs hx]
        simp [unescapeChars]
      | cons d t =>
        have hd : d ≠ '|' := escapeChars_ne_pipe_head xs d t hx
        rw [unescapeChars, if_neg (by rintro ⟨_, h2⟩; exact hd h2), ← hx, ih]

theorem escapeChars_injective (a b : List Char) (h : escapeChars a = escapeChars b) :
    a = b := by
  have ha := unescapeChars_escapeChars a
  rw [h, unescapeChars_escapeChars] at ha
  exact ha.symm

/-- Every delimiter in an escaped string is preceded by a backslash. -/
theorem noBarePipe_escapeChars (l : List Char) : noBarePipe (escapeChars l) = true := by
  induction l with
  | nil => rfl
  | cons c xs ih =>
    by_cases hc : c = '|'
    · subst hc
      rw [escapeChars, if_pos rfl, noBarePipe, if_pos ⟨rfl, rfl⟩]
      exact ih
    · rw [escapeChars, if_neg hc]
      cases hx : escapeChars xs with
      | nil =>
        simp [noBarePipe, hc]
      | cons d t =>
        have hd : d ≠ '|' := escapeChars_ne_pipe_head xs d t hx
        rw [noBarePipe, if_neg (by rintro ⟨_, h2⟩; exact hd h2), if_neg hc, ← hx]
        exact ih

theorem readQuotedIdent_quoteChars (v : List Char) :
    readQuotedIdent (quoteChars v ++ ['"']) = some v := by
  induction v with
  | nil => simp [quoteChars, readQuotedIdent]
  | cons c cs ih =>
    by_cases hc : c = '"'
    · subst hc
      rw [quoteChars, if_pos rfl]
      show readQuotedIdent ('"' :: '"' :: (quoteChars cs ++ ['"'])) = some ('"' :: cs)
      rw [readQuotedIdent, if_pos rfl, if_pos rfl]
      simp [ih]
    · rw [quoteChars, if_neg hc]
      show readQuotedIdent (c :: (quoteChars cs ++ ['"'])) = some (c :: cs)
      cases hq : quoteChars cs ++ ['"'] with
      | nil => exact absurd hq (by simp)
      | cons d t =>
        rw [readQuotedIdent, if_neg hc, ← hq, ih]
        rfl

/-- Identifier-quoting round-trip: the engine's reading of a quoted
identifier recovers the original table name exactly, for every name. -/
theorem sqliteUnquoteIdent_quote (v : String) :
    sqliteUnquoteIdent (quoteSqliteIdentifier v) = some v := by
  unfold sqliteUnquoteIdent quoteSqliteIdentifier
  have hdata : ("\"" ++ String.mk (quoteChars v.data) ++ "\"").data
      = '"' :: (quoteChars v.data ++ ['"']) := by
    rw [String.data_append, String.data_append]
    rfl
  rw [hdata]
  simp [readQuotedIdent_quoteChars]

/-! ## Claim theorems -/

theorem sqliteTableInfos_no_close (env : SqliteEnv) (ts : List SqliteTableRow) :
    DbEvent.close ∉ (sqliteTableInfos env ts).2 := by
  induction ts with
  | nil => simp [sqliteTableInfos]
  | cons t rest ih =>
    rw [sqliteTableInfos]
    cases env.tableInfoR t.name with
    | error e => simp
    | ok columns =>
      cases env.fkListR t.name with
      | error e => simp
      | ok fks => simp [ih]

/-- Claim C9: whenever a loader successfully opens its connection, the
connection is released exactly once, as the final resource event, on every
exit path — all-queries-succeed and any-query-fails alike — for all three
engine adapters. -/
theorem c9_connection_release :
    (∀ (config : ConnectionConfig) (env : PgEnv), env.connectR = .ok () →
      (loadPostgresSchema config env).2.count DbEvent.close = 1 ∧
      (loadPostgresSchema config env).2.getLast? = some DbEvent.close) ∧
    (∀ (config : ConnectionConfig) (env : MySqlEnv), env.connectR = .ok () →
      (loadMySqlSchema config env).2.count DbEvent.close = 1 ∧
      (loadMySqlSchema config env).2.getLast? = some DbEvent.close) ∧
    (∀ (config : ConnectionConfig) (env : SqliteEnv) (p : String),
      config.filePath = some p → p ≠ "" → env.openR = .ok () →
      (loadSqliteSchema config env).2.count DbEvent.close = 1 ∧
      (loadSqliteSchema config env).2.getLast? = some DbEvent.close) := by
  refine ⟨?_, ?_, ?_⟩
  · intro config env h
    simp only [loadPostgresSchema, h, tryFinallyEvents, pgTryBody]
    cases env.tablesR with
    | error e => exact ⟨rfl, rfl⟩
    | ok tableRows =>
      cases env.columnsR with
      | error e => exact ⟨rfl, rfl⟩
      | ok columnRows =>
        cases env.fkR with
        | error e => exact ⟨rfl, rfl⟩
        | ok fkRows => exact ⟨rfl, rfl⟩
  · intro config env h
    simp only [loadMySqlSchema, h, tryFinallyEvents, mysqlTryBody]
    cases env.tablesR with
    | error e => exact ⟨rfl, rfl⟩
    | ok tableRows =>
      cases env.columnsR with
      | error e => exact ⟨rfl, rfl⟩
      | ok columnRows =>
        cases env.fkR with
        | error e => exact ⟨rfl, rfl⟩
        | ok fkRows => exact ⟨rfl, rfl⟩
  · intro config env p hfp hp ho
    simp only [loadSqliteSchema, hfp, hp, ho, if_neg, tryFinallyEvents, sqliteTryBody]
    cases env.tablesR with
    | error e => exact ⟨rfl, rfl⟩
    | ok ts =>
      have hnc := sqliteTableInfos_no_close env ts
      constructor
      · show List.count DbEvent.close
            ((DbEvent.connect :: DbEvent.query "sqlite_master" :: (sqliteTableInfos env ts).2)
              ++ [DbEvent.close]) = 1
        rw [List.count_append, List.count_cons, List.count_cons]
        rw [List.count_eq_zero.mpr hnc]
        decide
      · show ((DbEvent.connect :: DbEvent.query "sqlite_master" :: (sqliteTableInfos env ts).2)
              ++ [DbEvent.close]).getLast? = some DbEvent.close
        rw [List.getLast?_concat]

/-- Witness for C9 at concrete environments with successful connections. -/
theorem c9_connection_release_witness :
    ((loadPostgresSchema { provider := .postgres }
        ⟨.ok (), .ok [], .ok [], .ok []⟩).2.count DbEvent.close = 1 ∧
     (loadPostgresSchema { provider := .postgres }
        ⟨.ok (), .ok [], .ok [], .ok []⟩).2.getLast? = some DbEvent.close) ∧
    ((loadMySqlSchema { provider := .mysql }
        ⟨.ok (), .error "boom", .ok [], .ok []⟩).2.count DbEvent.close = 1 ∧
     (loadMySqlSchema { provider := .mysql }
        ⟨.ok (), .error "boom", .ok [], .ok []⟩).2.getLast? = some DbEvent.close) ∧
    ((loadSqliteSchema { provider := .sqlite, filePath := some "/db" }
        ⟨.ok (), .ok [⟨"t", "table"⟩], fun _ => .ok [], fun _ => .ok []⟩).2.count DbEvent.close = 1 ∧
     (loadSqliteSchema { provider := .sqlite, filePath := some "/db" }
        ⟨.ok (), .ok [⟨"t", "table"⟩], fun _ => .ok [], fun _ => .ok []⟩).2.getLast? = some DbEvent.close) :=
  ⟨c9_connection_release.1 { provider := .postgres } ⟨.ok (), .ok [], .ok [], .ok []⟩ rfl,
   c9_connection_release.2.1 { provider := .mysql } ⟨.ok (), .error "boom", .ok [], .ok []⟩ rfl,
   c9_connection_release.2.2 { provider := .sqlite, filePath := some "/db" }
     ⟨.ok (), .ok [⟨"t", "table"⟩], fun _ => .ok [], fun _ => .ok []⟩ "/db" rfl (by decide) rfl⟩

/-- Claim C5: rendering is a pure function of the snapshot and the injected
timestamp; the timestamp influences exactly one line — for any two
timestamps the surrounding lines `pre`/`post` are identical, so rendering
the same snapshot twice with the same timestamp is byte-identical and the
body is timestamp-independent. -/
theorem c5_render_deterministic :
    ∀ (schema : DatabaseSchema) (t1 t2 : String),
      ∃ pre post : List String,
        renderLines schema t1 = pre ++ ("- Generated: " ++ t1) :: post ∧
        renderLines schema t2 = pre ++ ("- Generated: " ++ t2) :: post ∧
        renderMarkdown schema t1
          = String.intercalate "\n" (pre ++ ("- Generated: " ++ t1) :: post) := by
  intro schema t1 t2
  refine ⟨["# Database Context", "", "- Provider: **" ++ schema.provider.str ++ "**"]
      ++ (if (schema.database.getD "") = "" then []
          else ["- Database: **" ++ schema.database.getD "" ++ "**"]),
    "" :: (schema.tables.map tableLines).flatten, ?_, ?_, ?_⟩
  · simp [renderLines]
  · simp [renderLines]
  · simp [renderMarkdown, renderLines]

/-- Claim C10: the rendered document is independent of the connection
secret — two credential records differing only in `user` and `password`
render byte-identically for every schema. -/
theorem c10_secret_independence :
    ∀ (ty : DbManager.DatabaseType) (host : Option String) (port : Option Nat)
      (user1 user2 pw1 pw2 database sch : Option String) (ssl : Option Bool)
      (fp : Option String) (schema : DbManager.DatabaseSchema),
      DbManager.buildMarkdownContext
        { type := ty, host := host, port := port, user := user1, password := pw1,
          database := database, schema := sch, ssl := ssl, filePath := fp } schema
      = DbManager.buildMarkdownContext
        { type := ty, host := host, port := port, user := user2, password := pw2,
          database := database, schema := sch, ssl := ssl, filePath := fp } schema :=
  fun _ _ _ _ _ _ _ _ _ _ _ _ => rfl

theorem pgAddFk_fold_eq (l : List PgFkRow) :
    l.foldl (fun fks r => pgAddFk r fks) []
      = groupFold (fun r => r.constraint_name) (fun fk => fk.name)
          (fun r => pgPushPair r (pgNewFk r)) pgPushPair l := by
  have hfg : (fun (fks : List ForeignKey) (r : PgFkRow) => pgAddFk r fks)
      = fun fks r => groupStep (fun r => r.constraint_name) (fun fk => fk.name)
          (fun r => pgPushPair r (pgNewFk r)) pgPushPair r fks := by
    funext fks r
    exact pgAddFk_eq_groupStep r fks
  rw [groupFold, ← hfg]

theorem mysqlAddFk_eq_groupStep (row : MySqlFkRow) (fks : List ForeignKey) :
    mysqlAddFk row fks
      = groupStep (fun r => r.CONSTRAINT_NAME) (fun fk => fk.name)
          (fun r => mysqlPushPair r (mysqlNewFk r)) mysqlPushPair row fks := by
  induction fks with
  | nil => rfl
  | cons fk rest ih =>
    simp only [mysqlAddFk, groupStep]
    by_cases h : fk.name = row.CONSTRAINT_NAME
    · rw [if_pos h, if_pos h]
    · rw [if_neg h, if_neg h, ih]

theorem mysqlFkMap_step_eq (m : List (String × List ForeignKey)) (row : MySqlFkRow) :
    mapUpsert m row.TABLE_NAME [] (mysqlAddFk row)
      = groupStep (fun r : MySqlFkRow => r.TABLE_NAME) Prod.fst
          (fun r => (r.TABLE_NAME, mysqlAddFk r []))
          (fun r p => (p.1, mysqlAddFk r p.2)) row m := by
  induction m with
  | nil => rfl
  | cons p rest ih =>
    obtain ⟨k2, v⟩ := p
    simp only [mapUpsert, groupStep]
    by_cases h : k2 = row.TABLE_NAME
    · rw [if_pos h, if_pos h]
    · rw [if_neg h, if_neg h, ih]

theorem mysqlFkMap_eq_groupFold (rows : List MySqlFkRow) :
    mysqlFkMap rows
      = groupFold (fun r : MySqlFkRow => r.TABLE_NAME) Prod.fst
          (fun r => (r.TABLE_NAME, mysqlAddFk r []))
          (fun r p => (p.1, mysqlAddFk r p.2)) rows := by
  unfold mysqlFkMap groupFold
  congr 1
  funext m row
  exact mysqlFkMap_step_eq m row

/-- Value of `mysqlFkMap` at a table name, mirroring `pgFkMap_get`. -/
theorem mysqlFkMap_get (rows : List MySqlFkRow) (tk : String) :
    mapGet (mysqlFkMap rows) tk =
      match rows.filter (fun r => decide (r.TABLE_NAME = tk)) with
      | [] => none
      | l => some (l.foldl (fun fks r => mysqlAddFk r fks) []) := by
  rw [mysqlFkMap_eq_groupFold, mapGet_eq_find?]
  rw [(groupFold_keys_and_spec (fun r : MySqlFkRow => r.TABLE_NAME) Prod.fst
        (fun r => (r.TABLE_NAME, mysqlAddFk r []))
        (fun r p => (p.1, mysqlAddFk r p.2))
        (fun _ => rfl) (fun _ _ => rfl) rows).2 tk]
  unfold groupSpecAt
  cases hf : rows.filter (fun r => decide (r.TABLE_NAME = tk)) with
  | nil => rfl
  | cons r0 rs =>
    simp only [Option.map_some']
    rw [foldl_snd]
    simp [List.foldl_cons]

theorem mysqlAddFk_fold_eq (l : List MySqlFkRow) :
    l.foldl (fun fks r => mysqlAddFk r fks) []
      = groupFold (fun r => r.CONSTRAINT_NAME) (fun fk => fk.name)
          (fun r => mysqlPushPair r (mysqlNewFk r)) mysqlPushPair l := by
  have hfg : (fun (fks : List ForeignKey) (r : MySqlFkRow) => mysqlAddFk r fks)
      = fun fks r => groupStep (fun r => r.CONSTRAINT_NAME) (fun fk => fk.name)
          (fun r => mysqlPushPair r (mysqlNewFk r)) mysqlPushPair r fks := by
    funext fks r
    exact mysqlAddFk_eq_groupStep r fks
  rw [groupFold, ← hfg]

/-- The spec's grouping example: three flat rows, two constraints on `t1`. -/
def c1Rows : List PgFkRow :=
  [{ constraint_name := some "fk_a", table_schema := "public", table_name := "t1",
     column_name := "c1", foreign_table_schema := "public", foreign_table_name := "rt",
     foreign_column_name := "r1" },
   { constraint_name := some "fk_a", table_schema := "public", table_name := "t1",
     column_name := "c2", foreign_table_schema := "public", foreign_table_name := "rt",
     foreign_column_name := "r2" },
   { constraint_name := some "fk_b", table_schema := "public", table_name := "t1",
     column_name := "c3", foreign_table_schema := "public", foreign_table_name := "rt2",
     foreign_column_name := "r3" }]

def c1FkA : ForeignKey :=
  { name := some "fk_a", columns := ["c1", "c2"],
    referencedTable := { schema := some "public", name := "rt" },
    referencedColumns := ["r1", "r2"] }

def c1FkB : ForeignKey :=
  { name := some "fk_b", columns := ["c3"],
    referencedTable := { schema := some "public", name := "rt2" },
    referencedColumns := ["r3"] }

/-- Claim C1: each reconstructor groups flat rows by (table key, constraint
identifier) in first-seen order — one descriptor per distinct identifier,
whose `columns`/`referencedColumns` are the row-order appends of the rows of
that identifier — for the Postgres and MySQL loaders (identifier = constraint
name) and the SQLite loader (identifier = engine-local group id); in
particular the spec's three-row example yields exactly the two expected
descriptors for `t1`. -/
theorem c1_fk_grouping :
    (∀ (rows : List PgFkRow) (tk : String) (fks : List ForeignKey),
      mapGet (pgFkMap rows) tk = some fks →
        fks.map ForeignKey.name
          = seenKeys (fun r => r.constraint_name)
              (rows.filter (fun r => decide (pgTableKey r = tk))) ∧
        ∀ fk ∈ fks,
          ((rows.filter (fun r => decide (pgTableKey r = tk))).filter
              (fun r => decide (r.constraint_name = fk.name))) ≠ [] ∧
          fk.columns
            = ((rows.filter (fun r => decide (pgTableKey r = tk))).filter
                (fun r => decide (r.constraint_name = fk.name))).map PgFkRow.column_name ∧
          fk.referencedColumns
            = ((rows.filter (fun r => decide (pgTableKey r = tk))).filter
                (fun r => decide (r.constraint_name = fk.name))).map
                  PgFkRow.foreign_column_name) ∧
    (∀ (rows : List MySqlFkRow) (tk : String) (fks : List ForeignKey),
      mapGet (mysqlFkMap rows) tk = some fks →
        fks.map ForeignKey.name
          = seenKeys (fun r => r.CONSTRAINT_NAME)
              (rows.filter (fun r => decide (r.TABLE_NAME = tk))) ∧
        ∀ fk ∈ fks,
          ((rows.filter (fun r => decide (r.TABLE_NAME = tk))).filter
              (fun r => decide (r.CONSTRAINT_NAME = fk.name))) ≠ [] ∧
          fk.columns
            = ((rows.filter (fun r => decide (r.TABLE_NAME = tk))).filter
                (fun r => decide (r.CONSTRAINT_NAME = fk.name))).map MySqlFkRow.COLUMN_NAME ∧
          fk.referencedColumns
            = ((rows.filter (fun r => decide (r.TABLE_NAME = tk))).filter
                (fun r => decide (r.CONSTRAINT_NAME = fk.name))).map
                  MySqlFkRow.REFERENCED_COLUMN_NAME) ∧
    (∀ rows : List SqliteFkRow,
      (sqliteFkFold rows).map Prod.fst = seenKeys (fun r => r.id) rows ∧
      ∀ p ∈ sqliteFkFold rows,
        rows.filter (fun r => decide (r.id = p.1)) ≠ [] ∧
        p.2.columns = (rows.filter (fun r => decide (r.id = p.1))).map SqliteFkRow.fromCol ∧
        p.2.referencedColumns
          = (rows.filter (fun r => decide (r.id = p.1))).map SqliteFkRow.toCol) ∧
    mapGet (pgFkMap c1Rows) "public.t1" = some [c1FkA, c1FkB] := by
  refine ⟨?_, ?_, ?_, by decide⟩
  · intro rows tk fks h
    rw [pgFkMap_get] at h
    cases hc : rows.filter (fun r => decide (pgTableKey r = tk)) with
    | nil => rw [hc] at h; cases h
    | cons r0 rs =>
      rw [hc] at h
      have hsome : some ((r0 :: rs).foldl (fun fks r => pgAddFk r fks) []) = some fks := h
      have hfks : fks = (r0 :: rs).foldl (fun fks r => pgAddFk r fks) [] :=
        (Option.some.inj hsome).symm
      rw [pgAddFk_fold_eq] at hfks
      subst hfks
      constructor
      · exact (groupFold_keys_and_spec (fun r : PgFkRow => r.constraint_name)
          (fun fk : ForeignKey => fk.name)
          (fun r => pgPushPair r (pgNewFk r)) pgPushPair
          (fun _ => rfl) (fun _ _ => rfl) (r0 :: rs)).1
      · intro fk hfk
        have hc1 := groupFold_mem_proj (fun r : PgFkRow => r.constraint_name)
            (fun fk : ForeignKey => fk.name)
            (fun r => pgPushPair r (pgNewFk r)) pgPushPair
            (fun _ => rfl) (fun _ _ => rfl)
            ForeignKey.columns PgFkRow.column_name (fun _ => rfl) (fun _ _ => rfl)
            (r0 :: rs) fk hfk
        have hc2 := groupFold_mem_proj (fun r : PgFkRow => r.constraint_name)
            (fun fk : ForeignKey => fk.name)
            (fun r => pgPushPair r (pgNewFk r)) pgPushPair
            (fun _ => rfl) (fun _ _ => rfl)
            ForeignKey.referencedColumns PgFkRow.foreign_column_name (fun _ => rfl)
            (fun _ _ => rfl) (r0 :: rs) fk hfk
        exact ⟨hc1.1, hc1.2, hc2.2⟩
  · intro rows tk fks h
    rw [mysqlFkMap_get] at h
    cases hc : rows.filter (fun r => decide (r.TABLE_NAME = tk)) with
    | nil => rw [hc] at h; cases h
    | cons r0 rs =>
      rw [hc] at h
      have hsome : some ((r0 :: rs).foldl (fun fks r => mysqlAddFk r fks) []) = some fks := h
      have hfks : fks = (r0 :: rs).foldl (fun fks r => mysqlAddFk r fks) [] :=
        (Option.some.inj hsome).symm
      rw [mysqlAddFk_fold_eq] at hfks
      subst hfks
      constructor
      · exact (groupFold_keys_and_spec (fun r : MySqlFkRow => r.CONSTRAINT_NAME)
          (fun fk : ForeignKey => fk.name)
          (fun r => mysqlPushPair r (mysqlNewFk r)) mysqlPushPair
          (fun _ => rfl) (fun _ _ => rfl) (r0 :: rs)).1
      · intro fk hfk
        have hc1 := groupFold_mem_proj (fun r : MySqlFkRow => r.CONSTRAINT_NAME)
            (fun fk : ForeignKey => fk.name)
            (fun r => mysqlPushPair r (mysqlNewFk r)) mysqlPushPair
            (fun _ => rfl) (fun _ _ => rfl)
            ForeignKey.columns MySqlFkRow.COLUMN_NAME (fun _ => rfl) (fun _ _ => rfl)
            (r0 :: rs) fk hfk
        have hc2 := groupFold_mem_proj (fun r : MySqlFkRow => r.CONSTRAINT_NAME)
            (fun fk : ForeignKey => fk.name)
            (fun r => mysqlPushPair r (mysqlNewFk r)) mysqlPushPair
            (fun _ => rfl) (fun _ _ => rfl)
            ForeignKey.referencedColumns MySqlFkRow.REFERENCED_COLUMN_NAME (fun _ => rfl)
            (fun _ _ => rfl) (r0 :: rs) fk hfk
        exact ⟨hc1.1, hc1.2, hc2.2⟩
  · intro rows
    constructor
    · rw [sqliteFkFold_eq_groupFold]
      exact (groupFold_keys_and_spec (fun r : SqliteFkRow => r.id)
          (Prod.fst : Nat × ForeignKey → Nat)
          (fun r => (r.id, sqlitePushPair r (sqliteNewFk r)))
          (fun r p => (p.1, sqlitePushPair r p.2))
          (fun _ => rfl) (fun _ _ => rfl) rows).1
    · intro p hp
      rw [sqliteFkFold_eq_groupFold] at hp
      have hc1 := groupFold_mem_proj (fun r : SqliteFkRow => r.id)
          (Prod.fst : Nat × ForeignKey → Nat)
          (fun r => (r.id, sqlitePushPair r (sqliteNewFk r)))
          (fun r p => (p.1, sqlitePushPair r p.2))
          (fun _ => rfl) (fun _ _ => rfl)
          (fun p : Nat × ForeignKey => p.2.columns) SqliteFkRow.fromCol
          (fun _ => rfl) (fun _ _ => rfl) rows p hp
      have hc2 := groupFold_mem_proj (fun r : SqliteFkRow => r.id)
          (Prod.fst : Nat × ForeignKey → Nat)
          (fun r => (r.id, sqlitePushPair r (sqliteNewFk r)))
          (fun r p => (p.1, sqlitePushPair r p.2))
          (fun _ => rfl) (fun _ _ => rfl)
          (fun p : Nat × ForeignKey => p.2.referencedColumns) SqliteFkRow.toCol
          (fun _ => rfl) (fun _ _ => rfl) rows p hp
      have hne2 : rows.filter (fun r => decide (r.id = p.1)) ≠ [] := hc1.1
      have hcols : p.2.columns
          = (rows.filter (fun r => decide (r.id = p.1))).map SqliteFkRow.fromCol := hc1.2
      have hrefs : p.2.referencedColumns
          = (rows.filter (fun r => decide (r.id = p.1))).map SqliteFkRow.toCol := hc2.2
      exact ⟨hne2, hcols, hrefs⟩

/-- Witness for C1: the general Postgres part applied to the spec's example
rows, whose grouped result is the example conjunct of the theorem itself. -/
theorem c1_fk_grouping_witness :
    [c1FkA, c1FkB].map ForeignKey.name
      = seenKeys (fun r => r.constraint_name)
          (c1Rows.filter (fun r => decide (pgTableKey r = "public.t1"))) :=
  (c1_fk_grouping.1 c1Rows "public.t1" [c1FkA, c1FkB] c1_fk_grouping.2.2.2).1

/-- Claim C6: every reconstructed descriptor has equally long, positionally
aligned `columns`/`referencedColumns` sequences of length at least one —
both sequences are maps of the same non-empty row group, so the pair pushed
by row `i` occupies position `i` in both; shown for the Postgres (named)
and SQLite (group-id) reconstructors. -/
theorem c6_fk_length_invariant :
    (∀ (rows : List PgFkRow) (tk : String) (fks : List ForeignKey) (fk : ForeignKey),
      mapGet (pgFkMap rows) tk = some fks → fk ∈ fks →
        fk.columns.length = fk.referencedColumns.length ∧
        1 ≤ fk.columns.length ∧
        ∃ grp : List PgFkRow, grp ≠ [] ∧
          fk.columns = grp.map PgFkRow.column_name ∧
          fk.referencedColumns = grp.map PgFkRow.foreign_column_name) ∧
    (∀ (rows : List SqliteFkRow) (fk : ForeignKey),
      fk ∈ (sqliteFkFold rows).map Prod.snd →
        fk.columns.length = fk.referencedColumns.length ∧
        1 ≤ fk.columns.length ∧
        ∃ grp : List SqliteFkRow, grp ≠ [] ∧
          fk.columns = grp.map SqliteFkRow.fromCol ∧
          fk.referencedColumns = grp.map SqliteFkRow.toCol) := by
  constructor
  · intro rows tk fks fk hget hfk
    rw [pgFkMap_get] at hget
    cases hc : rows.filter (fun r => decide (pgTableKey r = tk)) with
    | nil => rw [hc] at hget; cases hget
    | cons r0 rs =>
      rw [hc] at hget
      have hsome : some ((r0 :: rs).foldl (fun fks r => pgAddFk r fks) []) = some fks := hget
      have hfks : fks = (r0 :: rs).foldl (fun fks r => pgAddFk r fks) [] :=
        (Option.some.inj hsome).symm
      rw [pgAddFk_fold_eq] at hfks
      subst hfks
      have hc1 := groupFold_mem_proj (fun r : PgFkRow => r.constraint_name)
          (fun fk : ForeignKey => fk.name)
          (fun r => pgPushPair r (pgNewFk r)) pgPushPair
          (fun _ => rfl) (fun _ _ => rfl)
          ForeignKey.columns PgFkRow.column_name (fun _ => rfl) (fun _ _ => rfl)
          (r0 :: rs) fk hfk
      have hc2 := groupFold_mem_proj (fun r : PgFkRow => r.constraint_name)
          (fun fk : ForeignKey => fk.name)
          (fun r => pgPushPair r (pgNewFk r)) pgPushPair
          (fun _ => rfl) (fun _ _ => rfl)
          ForeignKey.referencedColumns PgFkRow.foreign_column_name (fun _ => rfl)
          (fun _ _ => rfl) (r0 :: rs) fk hfk
      refine ⟨?_, ?_, _, hc1.1, hc1.2, hc2.2⟩
      · rw [hc1.2, hc2.2, List.length_map, List.length_map]
      · rw [hc1.2, List.length_map]
        exact List.length_pos.mpr hc1.1
  · intro rows fk hfk
    obtain ⟨p, hp, hpe⟩ := List.mem_map.mp hfk
    rw [sqliteFkFold_eq_groupFold] at hp
    have hc1 := groupFold_mem_proj (fun r : SqliteFkRow => r.id)
        (Prod.fst : Nat × ForeignKey → Nat)
        (fun r => (r.id, sqlitePushPair r (sqliteNewFk r)))
        (fun r p => (p.1, sqlitePushPair r p.2))
        (fun _ => rfl) (fun _ _ => rfl)
        (fun p : Nat × ForeignKey => p.2.columns) SqliteFkRow.fromCol
        (fun _ => rfl) (fun _ _ => rfl) rows p hp
    have hc2 := groupFold_mem_proj (fun r : SqliteFkRow => r.id)
        (Prod.fst : Nat × ForeignKey → Nat)
        (fun r => (r.id, sqlitePushPair r (sqliteNewFk r)))
        (fun r p => (p.1, sqlitePushPair r p.2))
        (fun _ => rfl) (fun _ _ => rfl)
        (fun p : Nat × ForeignKey => p.2.referencedColumns) SqliteFkRow.toCol
        (fun _ => rfl) (fun _ _ => rfl) rows p hp
    have hne2 : rows.filter (fun r => decide (r.id = p.1)) ≠ [] := hc1.1
    have hcols : p.2.columns
        = (rows.filter (fun r => decide (r.id = p.1))).map SqliteFkRow.fromCol := hc1.2
    have hrefs : p.2.referencedColumns
        = (rows.filter (fun r => decide (r.id = p.1))).map SqliteFkRow.toCol := hc2.2
    rw [← hpe]
    refine ⟨?_, ?_, _, hne2, hcols, hrefs⟩
    · rw [hcols, hrefs, List.length_map, List.length_map]
    · rw [hcols, List.length_map]
      exact List.length_pos.mpr hne2

/-- Witness for C6 at the example rows of C1. -/
theorem c6_fk_length_invariant_witness :
    (c1FkA.columns.length = c1FkA.referencedColumns.length ∧
     1 ≤ c1FkA.columns.length ∧
     ∃ grp : List PgFkRow, grp ≠ [] ∧
       c1FkA.columns = grp.map PgFkRow.column_name ∧
       c1FkA.referencedColumns = grp.map PgFkRow.foreign_column_name) ∧
    ((sqliteFkFold [⟨0, 0, "parent", "pid", "id", none, none⟩]).map Prod.snd).length = 1 ∧
    (∀ fk ∈ (sqliteFkFold [⟨0, 0, "parent", "pid", "id", none, none⟩]).map Prod.snd,
      fk.columns.length = fk.referencedColumns.length ∧
      1 ≤ fk.columns.length ∧
      ∃ grp : List SqliteFkRow, grp ≠ [] ∧
        fk.columns = grp.map SqliteFkRow.fromCol ∧
        fk.referencedColumns = grp.map SqliteFkRow.toCol) :=
  ⟨c6_fk_length_invariant.1 c1Rows "public.t1" [c1FkA, c1FkB] c1FkA (by decide)
      (by decide),
   by decide,
   fun fk hfk => c6_fk_length_invariant.2 [⟨0, 0, "parent", "pid", "id", none, none⟩] fk hfk⟩

/-- Two rows on the same table, both with an absent (`null`) constraint name
but plainly belonging to two distinct constraints (they reference different
tables). -/
def c3Rows : List PgFkRow :=
  [{ constraint_name := none, table_schema := "public", table_name := "t1",
     column_name := "c1", foreign_table_schema := "public", foreign_table_name := "ta",
     foreign_column_name := "x" },
   { constraint_name := none, table_schema := "public", table_name := "t1",
     column_name := "c2", foreign_table_schema := "public", foreign_table_name := "tb",
     foreign_column_name := "y" }]

/-- Counterexample to C3 as stated: the Postgres/MySQL reconstructors group
by constraint name verbatim, and `null === null` holds, so two distinct
unnamed constraints on `t1` are merged into a single descriptor (which even
mixes their column pairs and keeps only the first row's referenced table). -/
theorem c3_counterexample :
    mapGet (pgFkMap c3Rows) "public.t1"
      = some [{ name := none, columns := ["c1", "c2"],
                referencedTable := { schema := some "public", name := "ta" },
                referencedColumns := ["x", "y"] }] := by
  decide

/-- Claim C3 (amended): only the file-based engine reports absent constraint
names, and its reconstructor keys groups by the row's engine-local group id,
so two rows with distinct group ids are never merged — they always yield two
distinct map entries.  (The networked reconstructors group by constraint
name verbatim, under which two absent names would coalesce, as the
counterexample shows.) -/
theorem c3_sqlite_unnamed_not_merged :
    ∀ (rows : List SqliteFkRow) (r1 r2 : SqliteFkRow),
      r1 ∈ rows → r2 ∈ rows → r1.id ≠ r2.id →
      ∃ p1 p2 : Nat × ForeignKey,
        p1 ∈ sqliteFkFold rows ∧ p2 ∈ sqliteFkFold rows ∧
        p1.1 = r1.id ∧ p2.1 = r2.id ∧ p1 ≠ p2 := by
  intro rows r1 r2 h1 h2 hne
  have hkeys := (groupFold_keys_and_spec (fun r : SqliteFkRow => r.id)
      (Prod.fst : Nat × ForeignKey → Nat)
      (fun r => (r.id, sqlitePushPair r (sqliteNewFk r)))
      (fun r p => (p.1, sqlitePushPair r p.2))
      (fun _ => rfl) (fun _ _ => rfl) rows).1
  rw [← sqliteFkFold_eq_groupFold] at hkeys
  have hm1 : r1.id ∈ (sqliteFkFold rows).map Prod.fst := by
    rw [hkeys, mem_seenKeys]
    exact ⟨r1, h1, rfl⟩
  have hm2 : r2.id ∈ (sqliteFkFold rows).map Prod.fst := by
    rw [hkeys, mem_seenKeys]
    exact ⟨r2, h2, rfl⟩
  obtain ⟨p1, hp1, he1⟩ := List.mem_map.mp hm1
  obtain ⟨p2, hp2, he2⟩ := List.mem_map.mp hm2
  exact ⟨p1, p2, hp1, hp2, he1, he2, fun he => hne (by rw [← he1, ← he2, he])⟩

/-- Witness for C3 (amended): two unnamed sqlite rows with group ids 0 and 1. -/
theorem c3_sqlite_unnamed_not_merged_witness :
    ∃ p1 p2 : Nat × ForeignKey,
      p1 ∈ sqliteFkFold [⟨0, 0, "ta", "c1", "x", none, none⟩,
                         ⟨1, 0, "tb", "c2", "y", none, none⟩] ∧
      p2 ∈ sqliteFkFold [⟨0, 0, "ta", "c1", "x", none, none⟩,
                         ⟨1, 0, "tb", "c2", "y", none, none⟩] ∧
      p1.1 = (⟨0, 0, "ta", "c1", "x", none, none⟩ : SqliteFkRow).id ∧
      p2.1 = (⟨1, 0, "tb", "c2", "y", none, none⟩ : SqliteFkRow).id ∧
      p1 ≠ p2 :=
  c3_sqlite_unnamed_not_merged
    [⟨0, 0, "ta", "c1", "x", none, none⟩, ⟨1, 0, "tb", "c2", "y", none, none⟩]
    ⟨0, 0, "ta", "c1", "x", none, none⟩ ⟨1, 0, "tb", "c2", "y", none, none⟩
    (by decide) (by decide) (by decide)

/-- Counterexample to C4 as stated: the `DatabaseContextGenerator` renderer
interpolates the column *name* raw — only the default value goes through
`escapeMarkdown` — so a name containing the delimiter is emitted unescaped
and the row gains an extra cell separator. -/
theorem c4_counterexample :
    columnLine { name := "a|b", dataType := "text", isNullable := true, defaultValue := none }
      = "| a|b | text | YES |  |" ∧
    escapeMarkdown "a|b" = "a\\|b" ∧
    columnLine { name := "a|b", dataType := "text", isNullable := true, defaultValue := none }
      ≠ "| " ++ escapeMarkdown "a|b" ++ " | text | YES |  |" := by
  refine ⟨by decide, by decide, by decide⟩

/-- Claim C4 (amended): the escaping function prefixes every delimiter with a
backslash, is injective, and the unescaping parser is a left inverse
recovering the original exactly; default values are escaped by both
renderers, and the `DatabaseManager` renderer also escapes names and types —
but the `DatabaseContextGenerator` renderer emits names and types raw. -/
theorem c4_escaping_roundtrip :
    (∀ s : String, noBarePipe (escapeChars s.data) = true) ∧
    (∀ s : String, unescapeChars (escapeChars s.data) = s.data) ∧
    (∀ a b : String, escapeMarkdown a = escapeMarkdown b → a = b) ∧
    DbManager.formatColumnRow
      { name := "a|b", dataType := "text", nullable := true,
        defaultValue := some "x|y", isPrimaryKey := false }
      = "| a\\|b | text | Yes | x\\|y |  |" ∧
    columnLine { name := "n", dataType := "t", isNullable := false, defaultValue := some "x|y" }
      = "| n | t | NO | x\\|y |" := by
  refine ⟨fun s => noBarePipe_escapeChars s.data,
          fun s => unescapeChars_escapeChars s.data, ?_, by decide, by decide⟩
  intro a b h
  unfold escapeMarkdown at h
  have hd : escapeChars a.data = escapeChars b.data := congrArg String.data h
  have hab := escapeChars_injective a.data b.data hd
  cases a
  cases b
  exact congrArg String.mk hab

/-- Witness for C4's injectivity hypothesis at a concrete pair. -/
theorem c4_escaping_roundtrip_witness : ("a|b" : String) = "a|b" :=
  c4_escaping_roundtrip.2.2.1 "a|b" "a|b" rfl

def c7Creds : DbManager.ConnectionCredentials :=
  { type := .sqlite, filePath := some "/db.sqlite" }

def c7Schema : DbManager.DatabaseSchema :=
  { tables := [{ name := "t", columns := [] }] }

/-- Counterexample to C7 as stated: the `DatabaseManager` renderer emits the
bare two-line column-table header with no body rows for a zero-column table,
and no "no columns discovered" marker anywhere. -/
theorem c7_counterexample :
    DbManager.buildMarkdownLines c7Creds c7Schema
      = ["# Database Context", "", "## Connection", "", "- Type: sqlite",
         "- File: /db.sqlite", "", "## Tables", "", "### t", "",
         "| Column | Type | Nullable | Default | Primary Key |",
         "| --- | --- | --- | --- | --- |", ""] ∧
    "_No columns discovered._" ∉ DbManager.buildMarkdownLines c7Creds c7Schema := by
  refine ⟨by decide, by decide⟩

/-- Claim C7 (amended): the `DatabaseContextGenerator` renderer emits the
explicit marker for a zero-column table and never the column-table header;
the `DatabaseManager` renderer emits the bare header instead (see the
counterexample). -/
theorem c7_zero_column_marker :
    ∀ (name : String) (sch : Option String) (ty : TableKind)
      (fks : Option (List ForeignKey)),
      tableLines { name := name, schema := sch, type := ty, columns := [], foreignKeys := fks }
        = ["## " ++ (if (sch.getD "") = "" then name else sch.getD "" ++ "." ++ name), "",
           "Type: `" ++ ty.str ++ "`", "", "_No columns discovered._", ""] ∧
      "| Column | Type | Nullable | Default |"
        ∉ tableLines
            { name := name, schema := sch, type := ty, columns := [], foreignKeys := fks } := by
  intro name sch ty fks
  have hTL :
      tableLines { name := name, schema := sch, type := ty, columns := [], foreignKeys := fks }
      = ["## " ++ (if (sch.getD "") = "" then name else sch.getD "" ++ "." ++ name), "",
         "Type: `" ++ ty.str ++ "`", "", "_No columns discovered._", ""] := by
    simp [tableLines]
  refine ⟨hTL, ?_⟩
  rw [hTL]
  intro h
  simp only [List.mem_cons, List.not_mem_nil, or_false] at h
  rcases h with h | h | h | h | h | h
  · have h2 := congrArg String.data h
    rw [String.data_append] at h2
    simp at h2
  · simp at h
  · have h2 := congrArg String.data h
    rw [String.data_append, String.data_append] at h2
    simp at h2
  · simp at h
  · simp at h
  · simp at h

/-- Counterexample to C8 as stated: the `DatabaseManager` sqlite path
interpolates `JSON.stringify(table.name)`, which escapes an embedded double
quote with a backslash rather than doubling it — not the engine's
identifier-quoting convention — and the resulting fragment is malformed
(the identifier parser rejects it), while `quoteSqliteIdentifier` round-trips. -/
theorem c8_counterexample :
    jsonStringifyString "a\"b" = "\"a\\\"b\"" ∧
    jsonStringifyString "a\"b" ≠ quoteSqliteIdentifier "a\"b" ∧
    sqliteUnquoteIdent (jsonStringifyString "a\"b") = none ∧
    sqliteUnquoteIdent (quoteSqliteIdentifier "a\"b") = some "a\"b" := by
  refine ⟨by decide, by decide, by decide, by decide⟩

/-- Claim C8 (amended): the `DatabaseContextGenerator` path quotes every
interpolated table name by the engine convention — wrapped in double quotes
with embedded quotes doubled — and the identifier parser recovers every name
exactly (never a malformed fragment); the `DatabaseManager` path's JSON
string literal coincides with the convention only for names free of double
quotes, backslashes and control characters. -/
theorem c8_identifier_quoting :
    (∀ v : String, sqliteUnquoteIdent (quoteSqliteIdentifier v) = some v) ∧
    (∀ v : String, (∀ c ∈ v.data, c ≠ '"' ∧ c ≠ '\\' ∧ 32 ≤ c.toNat) →
      jsonStringifyString v = quoteSqliteIdentifier v) := by
  refine ⟨sqliteUnquoteIdent_quote, ?_⟩
  intro v hv
  have hgen : ∀ l : List Char, (∀ c ∈ l, c ≠ '"' ∧ c ≠ '\\' ∧ 32 ≤ c.toNat) →
      l.flatMap jsonEscapeChar = quoteChars l := by
    intro l hl
    induction l with
    | nil => rfl
    | cons c cs ih =>
      have hc := hl c (List.mem_cons_self c cs)
      have hcs := fun c2 h2 => hl c2 (List.mem_cons_of_mem c h2)
      have hj : jsonEscapeChar c = [c] := by
        have h8 : c ≠ Char.ofNat 8 := fun he => by rw [he] at hc; exact absurd hc.2.2 (by decide)
        have h9 : c ≠ Char.ofNat 9 := fun he => by rw [he] at hc; exact absurd hc.2.2 (by decide)
        have h10 : c ≠ Char.ofNat 10 := fun he => by rw [he] at hc; exact absurd hc.2.2 (by decide)
        have h12 : c ≠ Char.ofNat 12 := fun he => by rw [he] at hc; exact absurd hc.2.2 (by decide)
        have h13 : c ≠ Char.ofNat 13 := fun he => by rw [he] at hc; exact absurd hc.2.2 (by decide)
        have hctl : ¬(c.toNat < 32) := Nat.not_lt.mpr hc.2.2
        unfold jsonEscapeChar
        rw [if_neg hc.1, if_neg hc.2.1, if_neg h8, if_neg h9, if_neg h10, if_neg h12,
            if_neg h13, if_neg hctl]
      rw [List.flatMap_cons, hj, quoteChars, if_neg hc.1, ih hcs]
      rfl
  unfold jsonStringifyString quoteSqliteIdentifier
  rw [hgen v.data hv]

/-- Witness for C8's agreement hypothesis at a quote-free name. -/
theorem c8_identifier_quoting_witness :
    sqliteUnquoteIdent (quoteSqliteIdentifier "tbl") = some "tbl" ∧
    jsonStringifyString "tbl" = quoteSqliteIdentifier "tbl" :=
  ⟨c8_identifier_quoting.1 "tbl", c8_identifier_quoting.2 "tbl" (by decide)⟩

def c2Config : ConnectionConfig := { provider := .sqlite, filePath := some "/missing.db" }

/-- Counterexample to C2 as stated: the `DatabaseContextGenerator` sqlite
loader performs no existence check — with the file absent it still reaches
the driver's `open`, in default read-write mode (which creates the file),
instead of failing with the not-found error. -/
theorem c2_counterexample :
    loadSqliteSchemaOpen c2Config (fun _ => false) = .openedFile "/missing.db" false ∧
    SqliteOpenOutcome.openedFile "/missing.db" false
      ≠ SqliteOpenOutcome.errNotFound "/missing.db" := by
  refine ⟨rfl, by decide⟩

/-- Claim C2 (amended): the `DatabaseManager` sqlite path resolves the path,
checks existence, and fails with the distinct not-found error before any
open is attempted — no file can be created; the `DatabaseContextGenerator`
path opens unconditionally (see the counterexample). -/
theorem c2_dbmanager_fastfail :
    ∀ (credentials : DbManager.ConnectionCredentials) (fileExists : String → Bool)
      (resolvePath : String → String) (p : String),
      credentials.filePath = some p → p ≠ "" → fileExists (resolvePath p) = false →
      fetchSqliteSchemaOpen credentials fileExists resolvePath
        = .errNotFound (resolvePath p) := by
  intro credentials fileExists resolvePath p hfp hp hex
  unfold fetchSqliteSchemaOpen
  rw [hfp]
  simp [hp, hex]

/-- Witness for C2 (amended) at a concrete absent file. -/
theorem c2_dbmanager_fastfail_witness :
    fetchSqliteSchemaOpen { type := .sqlite, filePath := some "/missing.db" }
      (fun _ => false) (fun s => s) = .errNotFound "/missing.db" :=
  c2_dbmanager_fastfail { type := .sqlite, filePath := some "/missing.db" }
    (fun _ => false) (fun s => s) "/missing.db" rfl (by decide) rfl
